import Mathlib

/-!
# The four-window test program `windows.c`

A shallow embedding of `src/windows.c` and a verification of its behaviour.

The program talks to three outside parties: the C library (`printf`, `exit`,
`getopt`), the windowing layer (the `glfw*` calls) and OpenGL (the `gl*` calls).
They are modelled by one state, `World`, which holds what the windowing layer
remembers (hints, windows, positions, should-close flags) together with the
chronological log of every call the program made.  Everything the outside
decides (whether initialisation and window creation succeed, the frame sizes,
the events each poll delivers) is read from an `Env`.

C `int` values are integers reduced by `wrap32` after every arithmetic
operation.  The floating-point drawing code is not interpreted: one frame of
drawing is one log entry.
-/

namespace Windows

/-! ## Constants of the headers -/

def GLFW_TRUE : Int := 1
def GLFW_FALSE : Int := 0
def GLFW_RELEASE : Int := 0
def GLFW_PRESS : Int := 1
def GLFW_REPEAT : Int := 2
def GLFW_KEY_SPACE : Int := 32
def GLFW_KEY_ESCAPE : Int := 256
def GLFW_VISIBLE : Int := 0x00020004
def GLFW_DECORATED : Int := 0x00020005
def GLFW_FOCUS_ON_SHOW : Int := 0x0002000C
def EXIT_SUCCESS : Int := 0
def EXIT_FAILURE : Int := 1

/-- The value of a C `int` expression: the two's complement residue of `x`
in the range `-2^31 .. 2^31 - 1`. -/
def wrap32 (x : Int) : Int := (x + 2147483648) % 4294967296 - 2147483648

/-! ## Tables of the program -/

/-- The array `titles`. -/
def titles : List String := ["Red", "Green", "Blue", "Yellow"]

/-- The array `colors`, each component in hundredths (`0.95f` is `95`). -/
def colors : List (Nat × Nat × Nat) :=
  [(95, 32, 11), (50, 80, 16), (0, 68, 94), (98, 74, 4)]

/-! ## The outside world -/

/-- The window hints the program touches, as the windowing layer stores them. -/
structure Hints where
  decorated : Bool
  visible : Bool
  focusOnShow : Bool
deriving DecidableEq, Repr

/-- Hint values in force after the windowing layer is initialised. -/
def Hints.defaults : Hints := { decorated := true, visible := true, focusOnShow := true }

/-- What the windowing layer remembers of one window. -/
structure Window where
  title : String
  width : Int
  height : Int
  decorated : Bool
  visible : Bool
  focusOnShow : Bool
  hasKeyCallback : Bool
  xpos : Int
  ypos : Int
  shouldClose : Bool
deriving DecidableEq, Repr

/-- One call made by the code of `windows.c`. A window is named by its handle.
What a library routine writes on its own account (a diagnostic of `getopt`,
say) is not a call of the program and is not recorded. -/
inductive Call where
  | printf (text : String)
  | fprintf_stderr (text : String)
  | exit (status : Int)
  | glfwSetErrorCallback
  | glfwInit (ok : Bool)
  | glfwWindowHint (hint : Int) (value : Int)
  | glfwCreateWindow (width height : Int) (title : String) (hints : Hints) (result : Option Nat)
  | glfwSetKeyCallback (window : Nat)
  | glfwMakeContextCurrent (window : Nat)
  | gladLoadGL
  | glClearColor (r g b : Nat)
  | glfwGetWindowFrameSize (window : Nat)
  | glfwGetWindowPos (window : Nat)
  | glfwSetWindowPos (window : Nat) (xpos ypos : Int)
  | glfwShowWindow (window : Nat)
  | glResources
  | drawFrame (window : Nat)
  | glfwSwapBuffers (window : Nat)
  | glfwPollEvents
  | glfwWindowShouldClose (window : Nat)
  | glfwSetWindowShouldClose (window : Nat) (value : Int)
  | glfwTerminate
deriving DecidableEq, Repr

/-- The state of the outside world. `windows` is indexed by window handle:
the handle of a window is the number of windows created before it. -/
structure World where
  initialized : Bool
  hasErrorCallback : Bool
  hints : Hints
  windows : List Window
  current : Option Nat
  focused : Option Nat
  polls : Nat
  log : List Call
deriving DecidableEq, Repr

/-- The world at program start. -/
def World.boot : World :=
  { initialized := false, hasErrorCallback := false, hints := Hints.defaults,
    windows := [], current := none, focused := none, polls := 0, log := [] }

/-- Record a call in the log. -/
def World.call (w : World) (c : Call) : World := { w with log := w.log ++ [c] }

/-- An input event delivered by a poll. -/
inductive Event where
  | key (window : Nat) (key scancode action mods : Int)
  | close (window : Nat)
deriving DecidableEq, Repr

/-- Everything the outside decides. `createOk n` tells whether the creation of
the window with handle `n` succeeds, `events n` are the events delivered by
the poll number `n` (counting from zero). -/
structure Env where
  initOk : Bool
  createOk : Nat → Bool
  initialPos : Nat → Int × Int
  frameSize : Nat → Int × Int × Int × Int
  events : Nat → List Event
  errorCode : Int
  errorDescription : String

/-- Apply `f` to the window with handle `i`, when there is one. -/
def updateWindow (f : Window → Window) : Nat → List Window → List Window
  | _, [] => []
  | 0, win :: rest => f win :: rest
  | i + 1, win :: rest => win :: updateWindow f i rest

/-! ## The C library -/

/-- `exit(status)`: recorded in the log; the caller stops there. -/
def exit (w : World) (status : Int) : World := w.call (.exit status)

/-- Modelled from the spec: `getopt` is declared in `getopt.h`, which is not
among the sources. Section 4.1 asks for the conventional short-option scan:
clusters such as `-bf` are accepted and the scan stops at the first token that
is not an option. `optionChars args` lists the option characters of the
arguments that follow the program name. -/
def optionChars : List String → List Char
  | [] => []
  | arg :: rest =>
    match arg.toList with
    | '-' :: c :: cs => if c = '-' ∧ cs = [] then [] else (c :: cs) ++ optionChars rest
    | _ => []

/-- Modelled from the spec: the value `getopt` returns for one option
character: the character itself when `optstring` lists it, `'?'` otherwise. -/
def getoptChar (optstring : String) (c : Char) : Char :=
  if c ∈ optstring.toList then c else '?'

/-- Modelled from the spec: the values returned by the successive calls
`getopt(argc, argv, optstring)` before the call that returns `-1`. -/
def getoptSeq (argv : List String) (optstring : String) : List Char :=
  (optionChars argv.tail).map (getoptChar optstring)

/-! ## The windowing layer -/

def error_callback (w : World) (_error : Int) (description : String) : World :=
  w.call (.fprintf_stderr ("Error: " ++ description ++ "\n"))

/-- The windowing layer reports a failure through the error callback. -/
def reportError (env : Env) (w : World) : World :=
  if w.hasErrorCallback then error_callback w env.errorCode env.errorDescription else w

def glfwSetErrorCallback (w : World) : World :=
  { w.call .glfwSetErrorCallback with hasErrorCallback := true }

def glfwInit (env : Env) (w : World) : Bool × World :=
  if env.initOk then
    (true, { w.call (.glfwInit true) with initialized := true, hints := Hints.defaults })
  else
    (false, reportError env (w.call (.glfwInit false)))

def glfwTerminate (w : World) : World :=
  { w.call .glfwTerminate with
    initialized := false, windows := [], current := none, focused := none }

def glfwWindowHint (w : World) (hint : Int) (value : Int) : World :=
  let w1 := w.call (.glfwWindowHint hint value)
  if hint = GLFW_DECORATED then
    { w1 with hints := { w1.hints with decorated := decide (value ≠ 0) } }
  else if hint = GLFW_VISIBLE then
    { w1 with hints := { w1.hints with visible := decide (value ≠ 0) } }
  else if hint = GLFW_FOCUS_ON_SHOW then
    { w1 with hints := { w1.hints with focusOnShow := decide (value ≠ 0) } }
  else w1

/-- Window creation consumes the current hints. The new window gets the next
handle; its first position is chosen by the windowing layer. -/
def glfwCreateWindow (env : Env) (w : World) (width height : Int) (title : String) :
    Option Nat × World :=
  let handle := w.windows.length
  if env.createOk handle then
    let win : Window :=
      { title := title, width := width, height := height,
        decorated := w.hints.decorated, visible := w.hints.visible,
        focusOnShow := w.hints.focusOnShow, hasKeyCallback := false,
        xpos := (env.initialPos handle).1, ypos := (env.initialPos handle).2,
        shouldClose := false }
    (some handle,
      { w.call (.glfwCreateWindow width height title w.hints (some handle)) with
        windows := w.windows ++ [win] })
  else
    (none, reportError env (w.call (.glfwCreateWindow width height title w.hints none)))

def glfwSetKeyCallback (w : World) (window : Nat) : World :=
  { w.call (.glfwSetKeyCallback window) with
    windows := updateWindow (fun win => { win with hasKeyCallback := true }) window w.windows }

def glfwMakeContextCurrent (w : World) (window : Nat) : World :=
  { w.call (.glfwMakeContextCurrent window) with current := some window }

def glfwGetWindowFrameSize (env : Env) (w : World) (window : Nat) :
    (Int × Int × Int × Int) × World :=
  (env.frameSize window, w.call (.glfwGetWindowFrameSize window))

/-- Get-position returns the stored coordinates. -/
def glfwGetWindowPos (w : World) (window : Nat) : (Int × Int) × World :=
  match w.windows[window]? with
  | some win => ((win.xpos, win.ypos), w.call (.glfwGetWindowPos window))
  | none => ((0, 0), w.call (.glfwGetWindowPos window))

/-- Set-position stores the given coordinates. -/
def glfwSetWindowPos (w : World) (window : Nat) (xpos ypos : Int) : World :=
  { w.call (.glfwSetWindowPos window xpos ypos) with
    windows := updateWindow (fun win => { win with xpos := xpos, ypos := ypos }) window w.windows }

/-- Showing a window makes it visible; it takes the input focus when it was
created with the focus-on-show hint. -/
def glfwShowWindow (w : World) (window : Nat) : World :=
  let w1 := { w.call (.glfwShowWindow window) with
    windows := updateWindow (fun win => { win with visible := true }) window w.windows }
  match w.windows[window]? with
  | some win => if win.focusOnShow then { w1 with focused := some window } else w1
  | none => w1

def glfwSwapBuffers (w : World) (window : Nat) : World := w.call (.glfwSwapBuffers window)

def glfwSetWindowShouldClose (w : World) (window : Nat) (value : Int) : World :=
  { w.call (.glfwSetWindowShouldClose window value) with
    windows := updateWindow (fun win => { win with shouldClose := decide (value ≠ 0) })
      window w.windows }

def glfwWindowShouldClose (w : World) (window : Nat) : Bool × World :=
  match w.windows[window]? with
  | some win => (win.shouldClose, w.call (.glfwWindowShouldClose window))
  | none => (false, w.call (.glfwWindowShouldClose window))

/-! ## OpenGL -/

def gladLoadGL (w : World) : World := w.call .gladLoadGL

def glClearColor (w : World) (rgb : Nat × Nat × Nat) : World :=
  w.call (.glClearColor rgb.1 rgb.2.1 rgb.2.2)

/-- Lines 194-220 of `main`: buffer, shaders, program and attribute setup. -/
def glResources (w : World) : World := w.call .glResources

/-- Lines 230-248 of `main`: the drawing of one frame of `window`. -/
def drawFrame (w : World) (window : Nat) : World := w.call (.drawFrame window)

/-! ## The program -/

def usage (w : World) : World :=
  let w := w.call (.printf "Usage: windows [-h] [-b] [-f] \n")
  let w := w.call (.printf "Options:\n")
  let w := w.call (.printf "  -b create decorated windows\n")
  let w := w.call (.printf "  -f set focus on show off for all but first window\n")
  w.call (.printf "  -h show this help\n")

def key_callback (w : World) (window : Nat) (key _scancode action _mods : Int) : World :=
  if action ≠ GLFW_PRESS then w
  else if key = GLFW_KEY_SPACE then
    match glfwGetWindowPos w window with
    | ((xpos, ypos), w1) => glfwSetWindowPos w1 window xpos ypos
  else if key = GLFW_KEY_ESCAPE then
    glfwSetWindowShouldClose w window GLFW_TRUE
  else w

/-- One event of a poll: a key event runs the key callback of its window when
one is installed, a close request sets the should-close flag. -/
def dispatch (w : World) : Event → World
  | .key window key scancode action mods =>
    match w.windows[window]? with
    | some win =>
      if win.hasKeyCallback then key_callback w window key scancode action mods else w
    | none => w
  | .close window =>
    { w with windows := updateWindow (fun win => { win with shouldClose := true }) window w.windows }

/-- A poll delivers, in order, the events the environment has queued for it. -/
def glfwPollEvents (env : Env) (w : World) : World :=
  (env.events w.polls).foldl dispatch { w.call .glfwPollEvents with polls := w.polls + 1 }

/-- The result of a part of `main` that may call `exit`. -/
inductive Step (α : Type) where
  | exited (status : Int) (w : World)
  | next (a : α) (w : World)

/-- The world a part of `main` ends in. -/
def Step.world {α : Type} : Step α → World
  | .exited _ w => w
  | .next _ w => w

/-- The locals `decorated` and `focusOnShow` of `main`. -/
structure RunConfig where
  decorated : Int
  focusOnShow : Int
deriving DecidableEq, Repr

/-- Lines 137-154: the option loop, over the values `getopt` returns. -/
def optionLoop : List Char → RunConfig → World → Step RunConfig
  | [], cfg, w => .next cfg w
  | ch :: rest, cfg, w =>
    if ch = 'b' then optionLoop rest { cfg with decorated := GLFW_TRUE } w
    else if ch = 'f' then optionLoop rest { cfg with focusOnShow := GLFW_FALSE } w
    else if ch = 'h' then .exited EXIT_SUCCESS (exit (usage w) EXIT_SUCCESS)
    else .exited EXIT_FAILURE (exit (usage w) EXIT_FAILURE)

/-- The tiled position of window `i` as `main` computes it in `int`. -/
def tileX (i : Nat) (left right : Int) : Int :=
  wrap32 (100 + wrap32 (((i &&& 1 : Nat) : Int) * wrap32 (wrap32 (200 + left) + right)))

def tileY (i : Nat) (top bottom : Int) : Int :=
  wrap32 (100 + wrap32 (((i >>> 1 : Nat) : Int) * wrap32 (wrap32 (200 + top) + bottom)))

/-- Lines 164-187: `for (i = 0; i < 4; i++)` with `n` iterations left; the
second list argument is the array `windows` filled so far. -/
def createWindows (env : Env) (focusOnShow : Int) :
    Nat → Nat → List Nat → World → Step (List Nat)
  | 0, _, windows, w => .next windows w
  | n + 1, i, windows, w =>
    let w0 := if i ≠ 0 then glfwWindowHint w GLFW_FOCUS_ON_SHOW focusOnShow else w
    match glfwCreateWindow env w0 200 200 (titles.getD i "") with
    | (none, w1) => .exited EXIT_FAILURE (exit (glfwTerminate w1) EXIT_FAILURE)
    | (some win, w1) =>
      let w2 := glfwSetKeyCallback w1 win
      let w3 := glfwMakeContextCurrent w2 win
      let w4 := gladLoadGL w3
      let w5 := glClearColor w4 (colors.getD i (0, 0, 0))
      match glfwGetWindowFrameSize env w5 win with
      | ((left, top, right, bottom), w6) =>
        let w7 := glfwSetWindowPos w6 win (tileX i left right) (tileY i top bottom)
        createWindows env focusOnShow n (i + 1) (windows ++ [win]) w7

/-- Lines 189-190: `for (i = 0; i < 4; i++) glfwShowWindow(windows[i]);`. -/
def showWindows (windows : List Nat) : Nat → Nat → World → World
  | 0, _, w => w
  | n + 1, i, w => showWindows windows n (i + 1) (glfwShowWindow w (windows.getD i 0))

/-- The world and the local `running` inside the main loop. -/
structure LoopState where
  world : World
  running : Int
deriving DecidableEq, Repr

/-- Lines 226-254: window `window` is made current, drawn and swapped, and the
events are polled. -/
def drawAndPoll (env : Env) (w : World) (window : Nat) : World :=
  let w1 := glfwMakeContextCurrent w window
  let w2 := drawFrame w1 window
  let w3 := glfwSwapBuffers w2 window
  glfwPollEvents env w3

/-- Lines 226-257: the body of the inner `for` for window `i`. -/
def renderStep (env : Env) (windows : List Nat) (i : Nat) (s : LoopState) : LoopState :=
  match glfwWindowShouldClose (drawAndPoll env s.world (windows.getD i 0)) (windows.getD i 0) with
  | (true, w) => { world := w, running := GLFW_FALSE }
  | (false, w) => { world := w, running := s.running }

/-- Lines 224-258: the inner `for`, from window `i`, with `n` iterations left. -/
def renderLoop (env : Env) (windows : List Nat) : Nat → Nat → LoopState → LoopState
  | 0, _, s => s
  | n + 1, i, s => renderLoop env windows n (i + 1) (renderStep env windows i s)

/-- Lines 222-262: `while (running)`, allowed at most `fuel` cycles. -/
def mainLoop (env : Env) (windows : List Nat) : Nat → LoopState → LoopState
  | 0, s => s
  | fuel + 1, s =>
    if s.running ≠ 0 then mainLoop env windows fuel (renderLoop env windows 4 0 s) else s

/-- What a run of the program leaves behind: the world, and the exit status
when the program has exited (`none` when the main loop is still running after
the allowed number of cycles). -/
structure Result where
  world : World
  status : Option Int
deriving DecidableEq, Repr

/-- Lines 222-265: the main loop and the exit that follows it. -/
def runLoop (env : Env) (windows : List Nat) (fuel : Nat) (s : LoopState) : Result :=
  let s1 := mainLoop env windows fuel s
  if s1.running ≠ 0 then { world := s1.world, status := none }
  else { world := exit (glfwTerminate s1.world) EXIT_SUCCESS, status := some EXIT_SUCCESS }

/-- Lines 156-190 and 194-220: everything between the option loop and the
main loop. -/
def setup (env : Env) (cfg : RunConfig) (w : World) : Step (List Nat) :=
  let w1 := glfwSetErrorCallback w
  match glfwInit env w1 with
  | (false, w2) => .exited EXIT_FAILURE (exit w2 EXIT_FAILURE)
  | (true, w2) =>
    let w3 := glfwWindowHint w2 GLFW_DECORATED cfg.decorated
    let w4 := glfwWindowHint w3 GLFW_VISIBLE GLFW_FALSE
    match createWindows env cfg.focusOnShow 4 0 [] w4 with
    | .exited status w5 => .exited status w5
    | .next windows w5 => .next windows (glResources (showWindows windows 4 0 w5))

def main (argv : List String) (env : Env) (fuel : Nat) : Result :=
  match optionLoop (getoptSeq argv "bfh")
      { decorated := GLFW_FALSE, focusOnShow := GLFW_TRUE } World.boot with
  | .exited status w => { world := w, status := some status }
  | .next cfg w =>
    match setup env cfg w with
    | .exited status w1 => { world := w1, status := some status }
    | .next windows w1 => runLoop env windows fuel { world := w1, running := GLFW_TRUE }

/-! ## Sample environments -/

/-- Everything succeeds, the frame is 4/30/4/4, the first poll delivers an
Escape press on window 2 and the sixth a Space press on window 1. -/
def sampleEnv : Env :=
  { initOk := true
    createOk := fun _ => true
    initialPos := fun _ => (0, 0)
    frameSize := fun _ => (4, 30, 4, 4)
    events := fun n =>
      if n = 0 then [Event.key 2 GLFW_KEY_ESCAPE 9 GLFW_PRESS 0]
      else if n = 5 then [Event.key 1 GLFW_KEY_SPACE 65 GLFW_PRESS 0]
      else []
    errorCode := 65543
    errorDescription := "failure" }

/-- As `sampleEnv`, but the creation of window 2 fails. -/
def failingEnv : Env := { sampleEnv with createOk := fun n => decide (n ≠ 2) }

/-- As `sampleEnv`, but the windowing layer does not initialise. -/
def deadEnv : Env := { sampleEnv with initOk := false }

/-- The configuration the option loop ends with when every option character
is `b` or `f`. -/
def configOf (chars : List Char) : RunConfig :=
  { decorated := if 'b' ∈ chars then GLFW_TRUE else GLFW_FALSE
    focusOnShow := if 'f' ∈ chars then GLFW_FALSE else GLFW_TRUE }

def isCreate : Call → Bool
  | .glfwCreateWindow _ _ _ _ _ => true
  | _ => false

def isShow : Call → Bool
  | .glfwShowWindow _ => true
  | _ => false

def isFocusHint : Call → Bool
  | .glfwWindowHint hint _ => decide (hint = GLFW_FOCUS_ON_SHOW)
  | _ => false

def isDrawOrSwap : Call → Bool
  | .drawFrame _ => true
  | .glfwSwapBuffers _ => true
  | _ => false

/-- Calls that are only made inside the main loop. -/
def isRenderCall : Call → Bool
  | .drawFrame _ => true
  | .glfwSwapBuffers _ => true
  | .glfwPollEvents => true
  | .glfwWindowShouldClose _ => true
  | _ => false

def isTerminate : Call → Bool
  | .glfwTerminate => true
  | _ => false

/-- Calls made while events are polled: the poll itself and the calls of the
key callback. -/
def isPollCall : Call → Bool
  | .glfwPollEvents => true
  | .glfwGetWindowPos _ => true
  | .glfwSetWindowPos _ _ _ => true
  | .glfwSetWindowShouldClose _ _ => true
  | _ => false

/-- Calls made from the main loop on. -/
def isLoopCall : Call → Bool
  | .glfwMakeContextCurrent _ => true
  | .drawFrame _ => true
  | .glfwSwapBuffers _ => true
  | .glfwWindowShouldClose _ => true
  | .glfwTerminate => true
  | .exit _ => true
  | c => isPollCall c

/-- The result of each window creation attempted, in order. -/
def createResults (log : List Call) : List (Option Nat) :=
  log.filterMap (fun c => match c with
    | .glfwCreateWindow _ _ _ _ result => some result
    | _ => none)

/-- What the program wrote to standard output. -/
def stdoutLines (log : List Call) : List String :=
  log.filterMap (fun c => match c with
    | .printf text => some text
    | _ => none)

/-- What the program wrote to standard error. -/
def stderrLines (log : List Call) : List String :=
  log.filterMap (fun c => match c with
    | .fprintf_stderr text => some text
    | _ => none)

/-- The usage text. -/
def usageLines : List String :=
  ["Usage: windows [-h] [-b] [-f] \n", "Options:\n", "  -b create decorated windows\n",
   "  -f set focus on show off for all but first window\n", "  -h show this help\n"]

/-- The hint state consumed by the creation of window `i`. -/
def hintsAt (cfg : RunConfig) (i : Nat) : Hints :=
  { decorated := decide (cfg.decorated ≠ 0), visible := false,
    focusOnShow := if i = 0 then true else decide (cfg.focusOnShow ≠ 0) }

/-- The focus hint call that precedes the creation of window `i`. -/
def focusHintCalls (cfg : RunConfig) (i : Nat) : List Call :=
  if i = 0 then [] else [.glfwWindowHint GLFW_FOCUS_ON_SHOW cfg.focusOnShow]

/-- The calls of the iteration of the creation loop that creates window `i`. -/
def createCalls (env : Env) (cfg : RunConfig) (i : Nat) : List Call :=
  focusHintCalls cfg i ++
  [ .glfwCreateWindow 200 200 (titles.getD i "") (hintsAt cfg i) (some i),
    .glfwSetKeyCallback i,
    .glfwMakeContextCurrent i,
    .gladLoadGL,
    .glClearColor (colors.getD i (0, 0, 0)).1 (colors.getD i (0, 0, 0)).2.1
      (colors.getD i (0, 0, 0)).2.2,
    .glfwGetWindowFrameSize i,
    .glfwSetWindowPos i (tileX i (env.frameSize i).1 (env.frameSize i).2.2.1)
      (tileY i (env.frameSize i).2.1 (env.frameSize i).2.2.2) ]

/-- The calls of the iteration of the creation loop in which the creation of
window `k` fails. -/
def failedCalls (env : Env) (cfg : RunConfig) (k : Nat) : List Call :=
  focusHintCalls cfg k ++
  [ .glfwCreateWindow 200 200 (titles.getD k "") (hintsAt cfg k) none,
    .fprintf_stderr ("Error: " ++ env.errorDescription ++ "\n"),
    .glfwTerminate,
    .exit EXIT_FAILURE ]

/-- The calls before the creation loop. -/
def initCalls (cfg : RunConfig) : List Call :=
  [ .glfwSetErrorCallback, .glfwInit true,
    .glfwWindowHint GLFW_DECORATED cfg.decorated, .glfwWindowHint GLFW_VISIBLE GLFW_FALSE ]

/-- The calls between the creation loop and the main loop. -/
def showCalls : List Call :=
  [ .glfwShowWindow 0, .glfwShowWindow 1, .glfwShowWindow 2, .glfwShowWindow 3, .glResources ]

/-- Window `i` as the setup leaves it. -/
def tiledWindow (env : Env) (cfg : RunConfig) (i : Nat) : Window :=
  { title := titles.getD i "", width := 200, height := 200,
    decorated := (hintsAt cfg i).decorated, visible := true,
    focusOnShow := (hintsAt cfg i).focusOnShow, hasKeyCallback := true,
    xpos := tileX i (env.frameSize i).1 (env.frameSize i).2.2.1,
    ypos := tileY i (env.frameSize i).2.1 (env.frameSize i).2.2.2,
    shouldClose := false }

/-- The log of `w'` is the log of `w` followed by calls that satisfy `p`. -/
def LogGrows (p : Call → Bool) (w w' : World) : Prop :=
  ∃ added, w'.log = w.log ++ added ∧ ∀ c ∈ added, p c = true

/-- Window `h` exists and its should-close flag is set. -/
def Flagged (h : Nat) (w : World) : Prop :=
  ∃ win, w.windows[h]? = some win ∧ win.shouldClose = true

/-- Window `h` exists and has the key callback installed. -/
def Armed (h : Nat) (w : World) : Prop :=
  ∃ win, w.windows[h]? = some win ∧ win.hasKeyCallback = true

/-- From `w` to `w'` every window stays, keeps its key callback, and keeps a
should-close flag that was set. -/
def Keeps (w w' : World) : Prop :=
  ∀ (h : Nat) (win : Window), w.windows[h]? = some win →
    ∃ win', w'.windows[h]? = some win' ∧ win'.hasKeyCallback = win.hasKeyCallback ∧
      (win.shouldClose = true → win'.shouldClose = true)

/-- The key callback run `n` times on `window` with the same key and action;
`extra k` gives the scancode and the modifier bits of invocation `k`. -/
def pressKey (window : Nat) (key action : Int) (extra : Nat → Int × Int) : Nat → World → World
  | 0, w => w
  | n + 1, w =>
    key_callback (pressKey window key action extra n w) window key (extra n).1 action (extra n).2

/-! ## Facts about `updateWindow` -/

theorem updateWindow_getElem? (f : Window → Window) (i j : Nat) (ws : List Window) :
    (updateWindow f i ws)[j]? = if j = i then ws[j]?.map f else ws[j]? := by
  induction ws generalizing i j with
  | nil => cases i <;> simp [updateWindow]
  | cons win rest ih =>
    cases i with
    | zero => cases j <;> simp [updateWindow]
    | succ i =>
      cases j with
      | zero => simp [updateWindow]
      | succ j => simp [updateWindow, ih]

theorem updateWindow_fix (f : Window → Window) (i : Nat) (ws : List Window)
    (h : ∀ win, ws[i]? = some win → f win = win) : updateWindow f i ws = ws := by
  induction ws generalizing i with
  | nil => cases i <;> rfl
  | cons win rest ih =>
    cases i with
    | zero => simp [updateWindow, h win (by simp)]
    | succ i =>
      simp only [updateWindow, List.cons.injEq, true_and]
      exact ih i (fun win' hw => h win' (by simpa using hw))

/-! ## The key callback -/

theorem key_callback_space_windows (w : World) (window : Nat) (scancode mods : Int) :
    (key_callback w window GLFW_KEY_SPACE scancode GLFW_PRESS mods).windows = w.windows := by
  unfold key_callback glfwGetWindowPos
  cases hwin : w.windows[window]? with
  | none =>
    simp only [glfwSetWindowPos, World.call]
    simp
    exact updateWindow_fix _ _ _ (by simp [hwin])
  | some win =>
    simp only [glfwSetWindowPos, World.call]
    simp
    exact updateWindow_fix _ _ _ (by
      intro win' h
      rw [hwin] at h
      cases h
      rfl)

/-- C4: pressing Space `n` times on a window, with whatever scancodes and
modifier bits, leaves the stored windows as they were: the position and the
should-close flag of that window and of every other window keep their initial
values. -/
theorem space_presses_keep_windows (w : World) (window : Nat) (extra : Nat → Int × Int)
    (n : Nat) :
    (pressKey window GLFW_KEY_SPACE GLFW_PRESS extra n w).windows = w.windows := by
  induction n with
  | zero => rfl
  | succ n ih => rw [pressKey, key_callback_space_windows, ih]

/-- C5: an Escape press on an existing window sets that window's should-close
flag and changes nothing else of any window: every window keeps its position
and every other window keeps its should-close flag. -/
theorem escape_sets_should_close (w : World) (window : Nat) (scancode mods : Int)
    (h : window < w.windows.length) :
    (∃ win, (key_callback w window GLFW_KEY_ESCAPE scancode GLFW_PRESS mods).windows[window]?
        = some win ∧ win.shouldClose = true) ∧
    (∀ (j : Nat) (win : Window), w.windows[j]? = some win →
      (key_callback w window GLFW_KEY_ESCAPE scancode GLFW_PRESS mods).windows[j]? =
        some { win with shouldClose := if j = window then true else win.shouldClose }) := by
  have hkey : (key_callback w window GLFW_KEY_ESCAPE scancode GLFW_PRESS mods).windows =
      updateWindow (fun win => { win with shouldClose := true }) window w.windows := by
    simp [key_callback, glfwSetWindowShouldClose, World.call, GLFW_KEY_ESCAPE, GLFW_KEY_SPACE,
      GLFW_TRUE]
  rw [hkey]
  constructor
  · rw [updateWindow_getElem?]
    simp [h]
  · intro j win hj
    rw [updateWindow_getElem?, hj]
    by_cases hjw : j = window <;> simp [hjw]

theorem escape_sets_should_close_witness :
    ((key_callback (main ["windows"] sampleEnv 0).world 2 GLFW_KEY_ESCAPE 9 GLFW_PRESS
      0).windows[2]?).map Window.shouldClose = some true := by
  obtain ⟨win, hwin, hclose⟩ :=
    (escape_sets_should_close (main ["windows"] sampleEnv 0).world 2 9 0 (by decide)).1
  rw [hwin, Option.map_some', hclose]

/-- C6: the key callback changes nothing when the action is not a press or the
key is neither Space nor Escape, and its result never depends on the scancode
or on the modifier bits. -/
theorem key_callback_ignores (w : World) (window : Nat) (key scancode action mods : Int) :
    ((action ≠ GLFW_PRESS ∨ (key ≠ GLFW_KEY_SPACE ∧ key ≠ GLFW_KEY_ESCAPE)) →
      key_callback w window key scancode action mods = w) ∧
    (∀ scancode' mods', key_callback w window key scancode' action mods' =
      key_callback w window key scancode action mods) := by
  constructor
  · rintro (h | ⟨h1, h2⟩)
    · simp [key_callback, h]
    · simp [key_callback, h1, h2]
  · intro _ _
    rfl

theorem key_callback_ignores_witness :
    key_callback (main ["windows"] sampleEnv 0).world 1 GLFW_KEY_ESCAPE 9 GLFW_REPEAT 0 =
      (main ["windows"] sampleEnv 0).world :=
  (key_callback_ignores (main ["windows"] sampleEnv 0).world 1 GLFW_KEY_ESCAPE 9 GLFW_REPEAT
    0).1 (Or.inl (by decide))

/-! ## The setup -/

theorem setup_init_failure (env : Env) (cfg : RunConfig) (hinit : env.initOk = false) :
    ∃ w, setup env cfg World.boot = .exited EXIT_FAILURE w ∧
      w.log = [.glfwSetErrorCallback, .glfwInit false,
        .fprintf_stderr ("Error: " ++ env.errorDescription ++ "\n"), .exit EXIT_FAILURE] := by
  simp [setup, glfwInit, glfwSetErrorCallback, reportError, error_callback, exit, World.call,
    World.boot, hinit]

theorem setup_success (env : Env) (cfg : RunConfig) (hinit : env.initOk = true)
    (h0 : env.createOk 0 = true) (h1 : env.createOk 1 = true) (h2 : env.createOk 2 = true)
    (h3 : env.createOk 3 = true) :
    ∃ w, setup env cfg World.boot = .next [0, 1, 2, 3] w ∧
      w.log = initCalls cfg ++ createCalls env cfg 0 ++ createCalls env cfg 1 ++
        createCalls env cfg 2 ++ createCalls env cfg 3 ++ showCalls ∧
      w.windows = [tiledWindow env cfg 0, tiledWindow env cfg 1, tiledWindow env cfg 2,
        tiledWindow env cfg 3] ∧
      w.polls = 0 := by
  by_cases hf : cfg.focusOnShow = 0 <;>
  simp [hf, setup, createWindows, showWindows, glfwInit, glfwSetErrorCallback, glfwWindowHint,
    glfwCreateWindow, glfwSetKeyCallback, glfwMakeContextCurrent, gladLoadGL, glClearColor,
    glfwGetWindowFrameSize, glfwSetWindowPos, glfwShowWindow, glResources, World.call,
    World.boot, hinit, h0, h1, h2, h3, updateWindow, titles, colors, Hints.defaults,
    GLFW_DECORATED, GLFW_VISIBLE, GLFW_FOCUS_ON_SHOW, GLFW_FALSE, initCalls, createCalls,
    showCalls, tiledWindow, hintsAt, focusHintCalls]

theorem setup_create_failure (env : Env) (cfg : RunConfig) (hinit : env.initOk = true)
    (k : Nat) (hk : k < 4) (hok : ∀ j, j < k → env.createOk j = true)
    (hfail : env.createOk k = false) :
    ∃ w, setup env cfg World.boot = .exited EXIT_FAILURE w ∧
      w.log = initCalls cfg ++ (List.range k).flatMap (createCalls env cfg) ++
        failedCalls env cfg k := by
  interval_cases k
  · simp [setup, createWindows, glfwInit, glfwSetErrorCallback, glfwWindowHint,
      glfwCreateWindow, glfwTerminate, reportError, error_callback, exit, World.call,
      World.boot, hinit, hfail, titles, Hints.defaults,
      GLFW_DECORATED, GLFW_VISIBLE, GLFW_FOCUS_ON_SHOW, GLFW_FALSE, initCalls,
      failedCalls, hintsAt, focusHintCalls]
  · have h0 := hok 0 (by decide)
    simp [setup, createWindows, glfwInit, glfwSetErrorCallback, glfwWindowHint,
      glfwCreateWindow, glfwSetKeyCallback, glfwMakeContextCurrent, gladLoadGL, glClearColor,
      glfwGetWindowFrameSize, glfwSetWindowPos, glfwTerminate, reportError, error_callback,
      exit, World.call, World.boot, hinit, h0, hfail, updateWindow, titles, colors,
      Hints.defaults, GLFW_DECORATED, GLFW_VISIBLE, GLFW_FOCUS_ON_SHOW, GLFW_FALSE, initCalls,
      createCalls, failedCalls, hintsAt, focusHintCalls, List.range_succ]
  · have h0 := hok 0 (by decide)
    have h1 := hok 1 (by decide)
    simp [setup, createWindows, glfwInit, glfwSetErrorCallback, glfwWindowHint,
      glfwCreateWindow, glfwSetKeyCallback, glfwMakeContextCurrent, gladLoadGL, glClearColor,
      glfwGetWindowFrameSize, glfwSetWindowPos, glfwTerminate, reportError, error_callback,
      exit, World.call, World.boot, hinit, h0, h1, hfail, updateWindow, titles, colors,
      Hints.defaults, GLFW_DECORATED, GLFW_VISIBLE, GLFW_FOCUS_ON_SHOW, GLFW_FALSE, initCalls,
      createCalls, failedCalls, hintsAt, focusHintCalls, List.range_succ]
  · have h0 := hok 0 (by decide)
    have h1 := hok 1 (by decide)
    have h2 := hok 2 (by decide)
    simp [setup, createWindows, glfwInit, glfwSetErrorCallback, glfwWindowHint,
      glfwCreateWindow, glfwSetKeyCallback, glfwMakeContextCurrent, gladLoadGL, glClearColor,
      glfwGetWindowFrameSize, glfwSetWindowPos, glfwTerminate, reportError, error_callback,
      exit, World.call, World.boot, hinit, h0, h1, h2, hfail, updateWindow, titles, colors,
      Hints.defaults, GLFW_DECORATED, GLFW_VISIBLE, GLFW_FOCUS_ON_SHOW, GLFW_FALSE, initCalls,
      createCalls, failedCalls, hintsAt, focusHintCalls, List.range_succ]

/-! ## The option loop -/

theorem getoptChar_known (c : Char) (h : c = 'b' ∨ c = 'f') : getoptChar "bfh" c = c := by
  rcases h with h | h <;> subst h <;> decide

theorem getoptChar_unknown (c : Char) (hb : c ≠ 'b') (hf : c ≠ 'f') (hh : c ≠ 'h') :
    getoptChar "bfh" c ≠ 'b' ∧ getoptChar "bfh" c ≠ 'f' ∧ getoptChar "bfh" c ≠ 'h' := by
  have hmem : ¬ c ∈ "bfh".toList := by
    have : "bfh".toList = ['b', 'f', 'h'] := by decide
    rw [this]
    simp [hb, hf, hh]
  simp only [getoptChar, hmem, if_false]
  decide

theorem optionLoop_known (chars : List Char) (cfg : RunConfig) (w : World)
    (h : ∀ c ∈ chars, c = 'b' ∨ c = 'f') :
    optionLoop (chars.map (getoptChar "bfh")) cfg w =
      .next { decorated := if 'b' ∈ chars then GLFW_TRUE else cfg.decorated
              focusOnShow := if 'f' ∈ chars then GLFW_FALSE else cfg.focusOnShow } w := by
  induction chars generalizing cfg with
  | nil => rfl
  | cons c rest ih =>
    have hrest : ∀ x ∈ rest, x = 'b' ∨ x = 'f' := fun x hx => h x (List.mem_cons_of_mem _ hx)
    rcases h c (List.mem_cons_self _ _) with hc | hc
    · subst hc
      have hg : getoptChar "bfh" 'b' = 'b' := by decide
      simp only [List.map_cons, hg, optionLoop, if_true]
      rw [ih _ hrest]
      by_cases hb : 'b' ∈ rest <;> by_cases hf : 'f' ∈ rest <;> simp [hb, hf]
    · subst hc
      have hg : getoptChar "bfh" 'f' = 'f' := by decide
      have hne : ('f' : Char) ≠ 'b' := by decide
      simp only [List.map_cons, hg, optionLoop, if_true, if_neg hne]
      rw [ih _ hrest]
      by_cases hb : 'b' ∈ rest <;> by_cases hf : 'f' ∈ rest <;> simp [hb, hf]

theorem optionLoop_unknown (front rest : List Char) (c : Char) (cfg : RunConfig) (w : World)
    (h : ∀ x ∈ front, x = 'b' ∨ x = 'f') (hb : c ≠ 'b') (hf : c ≠ 'f') (hh : c ≠ 'h') :
    optionLoop ((front ++ c :: rest).map (getoptChar "bfh")) cfg w =
      .exited EXIT_FAILURE (exit (usage w) EXIT_FAILURE) := by
  induction front generalizing cfg with
  | nil =>
    obtain ⟨h1, h2, h3⟩ := getoptChar_unknown c hb hf hh
    simp [optionLoop, h1, h2, h3]
  | cons x front ih =>
    have hfront : ∀ y ∈ front, y = 'b' ∨ y = 'f' :=
      fun y hy => h y (List.mem_cons_of_mem _ hy)
    rcases h x (List.mem_cons_self _ _) with hx | hx
    · subst hx
      have hg : getoptChar "bfh" 'b' = 'b' := by decide
      simp only [List.cons_append, List.map_cons, hg, optionLoop, if_true]
      exact ih _ hfront
    · subst hx
      have hg : getoptChar "bfh" 'f' = 'f' := by decide
      have hne : ('f' : Char) ≠ 'b' := by decide
      simp only [List.cons_append, List.map_cons, hg, optionLoop, if_true, if_neg hne]
      exact ih _ hfront

theorem main_of_options (argv : List String) (env : Env) (fuel : Nat)
    (h : ∀ c ∈ optionChars argv.tail, c = 'b' ∨ c = 'f') :
    main argv env fuel =
      match setup env (configOf (optionChars argv.tail)) World.boot with
      | .exited status w => { world := w, status := some status }
      | .next windows w => runLoop env windows fuel { world := w, running := GLFW_TRUE } := by
  unfold main getoptSeq
  rw [optionLoop_known _ _ _ h]
  rfl

/-! ## The log only grows -/

theorem logGrows_refl (p : Call → Bool) (w : World) : LogGrows p w w :=
  ⟨[], by simp, by simp⟩

theorem logGrows_trans {p : Call → Bool} {w1 w2 w3 : World} (h12 : LogGrows p w1 w2)
    (h23 : LogGrows p w2 w3) : LogGrows p w1 w3 := by
  obtain ⟨a, ha, hpa⟩ := h12
  obtain ⟨b, hb, hpb⟩ := h23
  refine ⟨a ++ b, by rw [hb, ha, List.append_assoc], ?_⟩
  intro c hc
  rcases List.mem_append.mp hc with hc | hc
  · exact hpa c hc
  · exact hpb c hc

theorem logGrows_of_log {p : Call → Bool} {w w' : World} (c : Call) (hp : p c = true)
    (h : w'.log = w.log ++ [c]) : LogGrows p w w' :=
  ⟨[c], h, by simpa using hp⟩

theorem key_callback_log (w : World) (window : Nat) (key scancode action mods : Int) :
    LogGrows isPollCall w (key_callback w window key scancode action mods) := by
  unfold key_callback
  split_ifs
  · exact logGrows_refl _ _
  · unfold glfwGetWindowPos
    rcases w.windows[window]? with _ | win
    · exact ⟨[.glfwGetWindowPos window, .glfwSetWindowPos window 0 0],
        by simp [glfwSetWindowPos, World.call], by simp [isPollCall]⟩
    · exact ⟨[.glfwGetWindowPos window, .glfwSetWindowPos window win.xpos win.ypos],
        by simp [glfwSetWindowPos, World.call], by simp [isPollCall]⟩
  · exact logGrows_of_log (.glfwSetWindowShouldClose window GLFW_TRUE) rfl rfl
  · exact logGrows_refl _ _

theorem dispatch_log (w : World) (e : Event) : LogGrows isPollCall w (dispatch w e) := by
  cases e with
  | key window key scancode action mods =>
    simp only [dispatch]
    rcases w.windows[window]? with _ | win
    · exact logGrows_refl _ _
    · dsimp only
      split_ifs
      · exact key_callback_log _ _ _ _ _ _
      · exact logGrows_refl _ _
  | close window => exact ⟨[], by simp [dispatch], by simp⟩

theorem foldl_dispatch_log (events : List Event) (w : World) :
    LogGrows isPollCall w (events.foldl dispatch w) := by
  induction events generalizing w with
  | nil => exact logGrows_refl _ _
  | cons e rest ih => exact logGrows_trans (dispatch_log w e) (ih _)

theorem glfwPollEvents_log (env : Env) (w : World) :
    LogGrows isPollCall w (glfwPollEvents env w) := by
  unfold glfwPollEvents
  exact logGrows_trans (logGrows_of_log .glfwPollEvents rfl rfl) (foldl_dispatch_log _ _)

/-- The calls of one step of the inner loop: make current, draw, swap, then
what the poll adds, then the should-close query. -/
theorem renderStep_log (env : Env) (windows : List Nat) (i : Nat) (s : LoopState) :
    ∃ added, (renderStep env windows i s).world.log =
        s.world.log ++ [.glfwMakeContextCurrent (windows.getD i 0),
          .drawFrame (windows.getD i 0), .glfwSwapBuffers (windows.getD i 0)] ++ added ++
          [.glfwWindowShouldClose (windows.getD i 0)] ∧
      ∀ c ∈ added, isPollCall c = true := by
  obtain ⟨added, hlog, hadded⟩ := glfwPollEvents_log env
    (glfwSwapBuffers (drawFrame (glfwMakeContextCurrent s.world (windows.getD i 0))
      (windows.getD i 0)) (windows.getD i 0))
  refine ⟨added, ?_, hadded⟩
  have hq : ∀ w h, (glfwWindowShouldClose w h).2.log = w.log ++ [.glfwWindowShouldClose h] := by
    intro w h
    unfold glfwWindowShouldClose
    cases w.windows[h]? <;> rfl
  have hstep : (renderStep env windows i s).world =
      (glfwWindowShouldClose (drawAndPoll env s.world (windows.getD i 0))
        (windows.getD i 0)).2 := by
    unfold renderStep
    rcases hres : glfwWindowShouldClose (drawAndPoll env s.world (windows.getD i 0))
      (windows.getD i 0) with ⟨b, w⟩
    cases b <;> rfl
  rw [hstep, hq]
  unfold drawAndPoll
  rw [hlog]
  simp [glfwSwapBuffers, drawFrame, glfwMakeContextCurrent, World.call]

theorem renderStep_grows (env : Env) (windows : List Nat) (i : Nat) (s : LoopState) :
    LogGrows isLoopCall s.world (renderStep env windows i s).world := by
  obtain ⟨added, hlog, hadded⟩ := renderStep_log env windows i s
  refine ⟨_, by rw [hlog, List.append_assoc, List.append_assoc], ?_⟩
  intro c hc
  simp only [List.mem_append, List.mem_cons, List.mem_singleton, List.not_mem_nil,
    or_false] at hc
  rcases hc with (hc | hc | hc) | hc | hc
  · subst hc; rfl
  · subst hc; rfl
  · subst hc; rfl
  · have := hadded c hc
    cases c <;> simp_all [isPollCall, isLoopCall]
  · subst hc; rfl

theorem renderLoop_grows (env : Env) (windows : List Nat) (n i : Nat) (s : LoopState) :
    LogGrows isLoopCall s.world (renderLoop env windows n i s).world := by
  induction n generalizing i s with
  | zero => exact logGrows_refl _ _
  | succ n ih => exact logGrows_trans (renderStep_grows env windows i s) (ih _ _)

theorem mainLoop_grows (env : Env) (windows : List Nat) (fuel : Nat) (s : LoopState) :
    LogGrows isLoopCall s.world (mainLoop env windows fuel s).world := by
  induction fuel generalizing s with
  | zero => exact logGrows_refl _ _
  | succ fuel ih =>
    unfold mainLoop
    split_ifs
    · exact logGrows_trans (renderLoop_grows env windows 4 0 s) (ih _)
    · exact logGrows_refl _ _

theorem runLoop_grows (env : Env) (windows : List Nat) (fuel : Nat) (s : LoopState) :
    LogGrows isLoopCall s.world (runLoop env windows fuel s).world := by
  unfold runLoop
  dsimp only
  split_ifs
  · exact mainLoop_grows env windows fuel s
  · exact logGrows_trans (mainLoop_grows env windows fuel s)
      ⟨[.glfwTerminate, .exit EXIT_SUCCESS],
        by simp [exit, glfwTerminate, World.call], by simp [isLoopCall]⟩

theorem not_create_of_loop (c : Call) (h : isLoopCall c = true) :
    createResults [c] = [] ∧ isShow c = false ∧ isCreate c = false := by
  cases c <;> first
    | exact ⟨rfl, rfl, rfl⟩
    | exact absurd h (by simp [isLoopCall, isPollCall])

theorem createResults_append (l l' : List Call) :
    createResults (l ++ l') = createResults l ++ createResults l' := by
  unfold createResults
  exact List.filterMap_append _ _ _

theorem createResults_of_loop (added : List Call) (h : ∀ c ∈ added, isLoopCall c = true) :
    createResults added = [] := by
  induction added with
  | nil => rfl
  | cons c rest ih =>
    have hc := (not_create_of_loop c (h c (List.mem_cons_self _ _))).1
    have hrest := ih (fun x hx => h x (List.mem_cons_of_mem _ hx))
    have hsplit : c :: rest = [c] ++ rest := rfl
    rw [hsplit, createResults_append, hc, hrest]
    rfl

theorem filter_isShow_of_loop (added : List Call) (h : ∀ c ∈ added, isLoopCall c = true) :
    added.filter isShow = [] := by
  rw [List.filter_eq_nil_iff]
  intro c hc
  simp [(not_create_of_loop c (h c hc)).2.1]

/-! ## The claims about a whole run -/

/-- C8, as stated, fails: on `windows -z` the usage text goes to standard
output, so it is not true that it is on standard error with standard output
left empty. -/
theorem unknown_option_usage_not_on_stderr :
    stdoutLines (main ["windows", "-z"] sampleEnv 0).world.log = usageLines ∧
    ¬ (stderrLines (main ["windows", "-z"] sampleEnv 0).world.log = usageLines ∧
       stdoutLines (main ["windows", "-z"] sampleEnv 0).world.log = []) := by
  decide

/-- C8, amended: when the first option character that is neither `b` nor `f` is
not `h` either, the program prints the usage text to standard output, exits
with the failure status, and has neither initialised the windowing layer nor
created a window: its calls are the five `printf` of `usage` and `exit`. -/
theorem unknown_option_exits (argv : List String) (env : Env) (fuel : Nat)
    (front rest : List Char) (c : Char)
    (hchars : optionChars argv.tail = front ++ c :: rest)
    (hfront : ∀ x ∈ front, x = 'b' ∨ x = 'f') (hb : c ≠ 'b') (hf : c ≠ 'f') (hh : c ≠ 'h') :
    (main argv env fuel).status = some EXIT_FAILURE ∧
    (main argv env fuel).world.log = usageLines.map Call.printf ++ [.exit EXIT_FAILURE] ∧
    stdoutLines (main argv env fuel).world.log = usageLines ∧
    (main argv env fuel).world.initialized = false ∧
    (main argv env fuel).world.windows = [] ∧
    createResults (main argv env fuel).world.log = [] ∧
    (∀ ok, Call.glfwInit ok ∉ (main argv env fuel).world.log) := by
  have hmain : main argv env fuel =
      { world := exit (usage World.boot) EXIT_FAILURE, status := some EXIT_FAILURE } := by
    unfold main getoptSeq
    rw [hchars, optionLoop_unknown front rest c _ _ hfront hb hf hh]
  rw [hmain]
  refine ⟨rfl, by decide, by decide, rfl, rfl, by decide, ?_⟩
  intro ok
  cases ok <;> decide

theorem unknown_option_exits_witness :
    (main ["windows", "-bf", "-bz", "-h"] sampleEnv 5).status = some EXIT_FAILURE ∧
    stdoutLines (main ["windows", "-bf", "-bz", "-h"] sampleEnv 5).world.log = usageLines :=
  have h := unknown_option_exits ["windows", "-bf", "-bz", "-h"] sampleEnv 5
    ['b', 'f', 'b'] ['h'] 'z' (by decide) (by decide) (by decide) (by decide) (by decide)
  ⟨h.1, h.2.2.1⟩

theorem setup_log_shape (env : Env) (cfg : RunConfig) (hinit : env.initOk = true) :
    ∃ m tail, m ≤ 4 ∧ (∀ j, j < m → env.createOk j = true) ∧
      (setup env cfg World.boot).world.log =
        initCalls cfg ++ (List.range m).flatMap (createCalls env cfg) ++ tail ∧
      ((m < 4 ∧ env.createOk m = false ∧ tail = failedCalls env cfg m) ∨
        (m = 4 ∧ tail = showCalls)) := by
  by_cases hall : ∀ j, j < 4 → env.createOk j = true
  · obtain ⟨w, hw, hlog, -, -⟩ := setup_success env cfg hinit (hall 0 (by decide))
      (hall 1 (by decide)) (hall 2 (by decide)) (hall 3 (by decide))
    refine ⟨4, showCalls, le_refl _, hall, ?_, Or.inr ⟨rfl, rfl⟩⟩
    rw [hw]
    simp [Step.world, hlog, List.range_succ]
  · have hex : ∃ k, k < 4 ∧ env.createOk k = false := by
      by_contra hno
      apply hall
      intro j hj
      by_contra hjf
      exact hno ⟨j, hj, by simpa using hjf⟩
    classical
    obtain ⟨hk4, hkf⟩ := Nat.find_spec hex
    have hok : ∀ j, j < Nat.find hex → env.createOk j = true := by
      intro j hj
      by_contra hjf
      exact Nat.find_min hex hj ⟨lt_trans hj hk4, by simpa using hjf⟩
    obtain ⟨w, hw, hlog⟩ := setup_create_failure env cfg hinit _ hk4 hok hkf
    refine ⟨Nat.find hex, failedCalls env cfg (Nat.find hex), le_of_lt hk4, hok, ?_,
      Or.inl ⟨hk4, hkf, rfl⟩⟩
    rw [hw]
    exact hlog

/-! ## The pieces of the setup log -/

theorem initCalls_props (cfg : RunConfig) :
    createResults (initCalls cfg) = [] ∧ (initCalls cfg).filter isTerminate = [] ∧
    (initCalls cfg).filter isShow = [] ∧
    ∀ c ∈ initCalls cfg, isShow c = false ∧ isRenderCall c = false ∧ isDrawOrSwap c = false ∧
      isCreate c = false ∧ isFocusHint c = false := by
  refine ⟨rfl, rfl, rfl, ?_⟩
  intro c hc
  simp only [initCalls, List.mem_cons, List.mem_singleton, List.not_mem_nil, or_false] at hc
  rcases hc with h | h | h | h <;> subst h <;> refine ⟨rfl, rfl, rfl, rfl, ?_⟩ <;>
    simp [isFocusHint, GLFW_DECORATED, GLFW_VISIBLE, GLFW_FOCUS_ON_SHOW]

theorem focusHintCalls_props (cfg : RunConfig) (i : Nat) :
    createResults (focusHintCalls cfg i) = [] ∧ (focusHintCalls cfg i).filter isTerminate = [] ∧
    (focusHintCalls cfg i).filter isShow = [] ∧
    ∀ c ∈ focusHintCalls cfg i, c = .glfwWindowHint GLFW_FOCUS_ON_SHOW cfg.focusOnShow := by
  unfold focusHintCalls
  by_cases hi : i = 0
  · simp [hi, createResults]
  · simp [hi, createResults, isTerminate, isShow]

theorem createCalls_props (env : Env) (cfg : RunConfig) (i : Nat) :
    createResults (createCalls env cfg i) = [some i] ∧
    (createCalls env cfg i).filter isTerminate = [] ∧
    (createCalls env cfg i).filter isShow = [] ∧
    ∀ c ∈ createCalls env cfg i, isShow c = false ∧ isRenderCall c = false ∧
      isDrawOrSwap c = false ∧
      ∀ width height title hints result, c = .glfwCreateWindow width height title hints result →
        hints.visible = false := by
  obtain ⟨h1, h2, h3, h4⟩ := focusHintCalls_props cfg i
  unfold createCalls
  refine ⟨?_, ?_, ?_, ?_⟩
  · rw [createResults_append, h1]
    rfl
  · rw [List.filter_append, h2]
    rfl
  · rw [List.filter_append, h3]
    rfl
  · intro c hc
    rw [List.mem_append] at hc
    rcases hc with hc | hc
    · rw [h4 c hc]
      exact ⟨rfl, rfl, rfl, by intro _ _ _ _ _ h; cases h⟩
    · simp only [List.mem_cons, List.mem_singleton, List.not_mem_nil, or_false] at hc
      rcases hc with h | h | h | h | h | h | h <;> subst h <;>
        refine ⟨rfl, rfl, rfl, ?_⟩ <;> intro _ _ _ _ _ h <;> cases h
      rfl

theorem failedCalls_props (env : Env) (cfg : RunConfig) (k : Nat) :
    createResults (failedCalls env cfg k) = [none] ∧
    (failedCalls env cfg k).filter isTerminate = [.glfwTerminate] ∧
    (failedCalls env cfg k).getLast? = some (.exit EXIT_FAILURE) ∧
    ∀ c ∈ failedCalls env cfg k, isShow c = false ∧ isRenderCall c = false := by
  obtain ⟨h1, h2, -, h4⟩ := focusHintCalls_props cfg k
  unfold failedCalls
  refine ⟨?_, ?_, ?_, ?_⟩
  · rw [createResults_append, h1]
    rfl
  · rw [List.filter_append, h2]
    rfl
  · rw [List.getLast?_append]
    rfl
  · intro c hc
    rw [List.mem_append] at hc
    rcases hc with hc | hc
    · rw [h4 c hc]
      exact ⟨rfl, rfl⟩
    · simp only [List.mem_cons, List.mem_singleton, List.not_mem_nil, or_false] at hc
      rcases hc with h | h | h | h <;> subst h <;> exact ⟨rfl, rfl⟩

theorem createBlocks_props (env : Env) (cfg : RunConfig) (m : Nat) :
    createResults ((List.range m).flatMap (createCalls env cfg)) = (List.range m).map some ∧
    ((List.range m).flatMap (createCalls env cfg)).filter isTerminate = [] ∧
    ((List.range m).flatMap (createCalls env cfg)).filter isShow = [] ∧
    ∀ c ∈ (List.range m).flatMap (createCalls env cfg), isShow c = false ∧
      isRenderCall c = false ∧ isDrawOrSwap c = false ∧
      ∀ width height title hints result, c = .glfwCreateWindow width height title hints result →
        hints.visible = false := by
  refine ⟨?_, ?_, ?_, ?_⟩
  · induction m with
    | zero => rfl
    | succ m ih =>
      rw [List.range_succ, List.flatMap_append, createResults_append, ih, List.map_append]
      simp [(createCalls_props env cfg m).1]
  · induction m with
    | zero => rfl
    | succ m ih =>
      rw [List.range_succ, List.flatMap_append, List.filter_append, ih]
      simp [(createCalls_props env cfg m).2.1]
  · induction m with
    | zero => rfl
    | succ m ih =>
      rw [List.range_succ, List.flatMap_append, List.filter_append, ih]
      simp [(createCalls_props env cfg m).2.2.1]
  · intro c hc
    rw [List.mem_flatMap] at hc
    obtain ⟨i, -, hci⟩ := hc
    exact (createCalls_props env cfg i).2.2.2 c hci

/-- C10: when the creation of window `k` fails after windows `0..k-1` were
created, the program terminates the windowing layer exactly once, attempts no
further creation, shows no window, makes no call of the render loop and exits
with the failure status; when the windowing layer does not initialise, the
program exits with the failure status without a single creation attempt. -/
theorem creation_failure_exits (argv : List String)
    (hopts : ∀ c ∈ optionChars argv.tail, c = 'b' ∨ c = 'f') :
    (∀ (env : Env) (fuel k : Nat), k < 4 → env.initOk = true →
      (∀ j, j < k → env.createOk j = true) → env.createOk k = false →
        (main argv env fuel).status = some EXIT_FAILURE ∧
        (main argv env fuel).world.log.filter isTerminate = [.glfwTerminate] ∧
        createResults (main argv env fuel).world.log = (List.range k).map some ++ [none] ∧
        (main argv env fuel).world.log.getLast? = some (.exit EXIT_FAILURE) ∧
        (∀ c ∈ (main argv env fuel).world.log, isShow c = false ∧ isRenderCall c = false)) ∧
    (∀ (env : Env) (fuel : Nat), env.initOk = false →
        (main argv env fuel).status = some EXIT_FAILURE ∧
        createResults (main argv env fuel).world.log = [] ∧
        (main argv env fuel).world.log.getLast? = some (.exit EXIT_FAILURE)) := by
  constructor
  · intro env fuel k hk hinit hok hfail
    obtain ⟨w, hw, hlog⟩ :=
      setup_create_failure env (configOf (optionChars argv.tail)) hinit k hk hok hfail
    rw [main_of_options argv env fuel hopts, hw]
    dsimp only
    rw [hlog]
    obtain ⟨i1, i2, -, i4⟩ := initCalls_props (configOf (optionChars argv.tail))
    obtain ⟨b1, b2, -, b4⟩ := createBlocks_props env (configOf (optionChars argv.tail)) k
    obtain ⟨f1, f2, f3, f4⟩ := failedCalls_props env (configOf (optionChars argv.tail)) k
    refine ⟨rfl, ?_, ?_, ?_, ?_⟩
    · rw [List.filter_append, List.filter_append, i2, b2, f2]
      rfl
    · rw [createResults_append, createResults_append, i1, b1, f1]
      rfl
    · rw [List.getLast?_append, f3]
      rfl
    · intro c hc
      rw [List.mem_append, List.mem_append] at hc
      rcases hc with (hc | hc) | hc
      · exact ⟨(i4 c hc).1, (i4 c hc).2.1⟩
      · exact ⟨(b4 c hc).1, (b4 c hc).2.1⟩
      · exact f4 c hc
  · intro env fuel hinit
    obtain ⟨w, hw, hlog⟩ := setup_init_failure env (configOf (optionChars argv.tail)) hinit
    rw [main_of_options argv env fuel hopts, hw]
    dsimp only
    rw [hlog]
    exact ⟨rfl, rfl, rfl⟩

theorem creation_failure_exits_witness :
    ((main ["windows", "-b"] failingEnv 7).status = some EXIT_FAILURE ∧
      createResults (main ["windows", "-b"] failingEnv 7).world.log = [some 0, some 1, none]) ∧
    (main ["windows", "-b"] deadEnv 7).status = some EXIT_FAILURE :=
  have h := creation_failure_exits ["windows", "-b"] (by decide)
  have h1 := h.1 failingEnv 7 2 (by decide) rfl (by decide) rfl
  ⟨⟨h1.1, h1.2.2.1⟩, (h.2 deadEnv 7 rfl).1⟩

/-- C9: in a run in which the initialisation and the four creations succeed,
there are exactly four creation calls, all made while the VISIBLE hint is
false, and exactly four show calls, for the windows 0, 1, 2, 3 in this order;
the show calls come after a set-position call of each of the four windows and
before any frame is drawn or swapped. -/
theorem four_windows_shown (argv : List String) (env : Env) (fuel : Nat)
    (hopts : ∀ c ∈ optionChars argv.tail, c = 'b' ∨ c = 'f')
    (hinit : env.initOk = true) (hcreate : ∀ i, i < 4 → env.createOk i = true) :
    createResults (main argv env fuel).world.log = [some 0, some 1, some 2, some 3] ∧
    (∀ width height title hints result,
      Call.glfwCreateWindow width height title hints result ∈ (main argv env fuel).world.log →
        hints.visible = false) ∧
    (main argv env fuel).world.log.filter isShow =
      [.glfwShowWindow 0, .glfwShowWindow 1, .glfwShowWindow 2, .glfwShowWindow 3] ∧
    ∃ before after,
      (main argv env fuel).world.log =
        before ++ [.glfwShowWindow 0, .glfwShowWindow 1, .glfwShowWindow 2, .glfwShowWindow 3]
          ++ after ∧
      (∀ i, i < 4 → ∃ x y, Call.glfwSetWindowPos i x y ∈ before) ∧
      (∀ c ∈ before, isRenderCall c = false) ∧
      (∀ c ∈ after, isShow c = false ∧ isCreate c = false) := by
  obtain ⟨w, hw, hlog, -, -⟩ := setup_success env (configOf (optionChars argv.tail)) hinit
    (hcreate 0 (by decide)) (hcreate 1 (by decide)) (hcreate 2 (by decide))
    (hcreate 3 (by decide))
  obtain ⟨added, hadded, hloop⟩ :=
    runLoop_grows env [0, 1, 2, 3] fuel { world := w, running := GLFW_TRUE }
  rw [main_of_options argv env fuel hopts, hw]
  dsimp only at hadded ⊢
  have hblocks : initCalls (configOf (optionChars argv.tail)) ++
      createCalls env (configOf (optionChars argv.tail)) 0 ++
      createCalls env (configOf (optionChars argv.tail)) 1 ++
      createCalls env (configOf (optionChars argv.tail)) 2 ++
      createCalls env (configOf (optionChars argv.tail)) 3 =
      initCalls (configOf (optionChars argv.tail)) ++
        (List.range 4).flatMap (createCalls env (configOf (optionChars argv.tail))) := by
    simp [List.range_succ]
  rw [hadded, hlog, hblocks]
  obtain ⟨i1, -, i3, i4⟩ := initCalls_props (configOf (optionChars argv.tail))
  obtain ⟨b1, -, b3, b4⟩ := createBlocks_props env (configOf (optionChars argv.tail)) 4
  have hres := createResults_of_loop added hloop
  have hshow := filter_isShow_of_loop added hloop
  refine ⟨?_, ?_, ?_, ?_⟩
  · rw [createResults_append, createResults_append, createResults_append, i1, b1, hres]
    rfl
  · intro width height title hints result hmem
    rw [List.mem_append, List.mem_append, List.mem_append] at hmem
    rcases hmem with ((hmem | hmem) | hmem) | hmem
    · exact absurd (i4 _ hmem).2.2.2.1 (by simp [isCreate])
    · exact (b4 _ hmem).2.2.2 _ _ _ _ _ rfl
    · simp [showCalls] at hmem
    · exact absurd (not_create_of_loop _ (hloop _ hmem)).2.2 (by simp [isCreate])
  · rw [List.filter_append, List.filter_append, List.filter_append, i3, b3, hshow]
    rfl
  · refine ⟨initCalls (configOf (optionChars argv.tail)) ++
        (List.range 4).flatMap (createCalls env (configOf (optionChars argv.tail))),
      [.glResources] ++ added, ?_, ?_, ?_, ?_⟩
    · simp [showCalls]
    · intro i hi
      refine ⟨tileX i (env.frameSize i).1 (env.frameSize i).2.2.1,
        tileY i (env.frameSize i).2.1 (env.frameSize i).2.2.2, ?_⟩
      refine List.mem_append_right _ (List.mem_flatMap.mpr ⟨i, List.mem_range.mpr hi, ?_⟩)
      simp [createCalls]
    · intro c hc
      rw [List.mem_append] at hc
      rcases hc with hc | hc
      · exact (i4 c hc).2.1
      · exact (b4 c hc).2.1
    · intro c hc
      simp only [List.mem_append, List.mem_singleton] at hc
      rcases hc with h | h
      · subst h
        exact ⟨rfl, rfl⟩
      · exact ⟨(not_create_of_loop c (hloop c h)).2.1, (not_create_of_loop c (hloop c h)).2.2⟩

theorem four_windows_shown_witness :
    (main ["windows", "-f"] sampleEnv 3).world.log.filter isShow =
      [.glfwShowWindow 0, .glfwShowWindow 1, .glfwShowWindow 2, .glfwShowWindow 3] :=
  (four_windows_shown ["windows", "-f"] sampleEnv 3 (by decide) rfl (fun _ _ => rfl)).2.2.1

/-! ## The creation loop: positions and focus hints -/

theorem flatMap_range_split (f : Nat → List Call) (i m : Nat) (h : i < m) :
    ∃ rest, (List.range m).flatMap f = (List.range i).flatMap f ++ f i ++ rest := by
  induction m with
  | zero => exact absurd h (Nat.not_lt_zero _)
  | succ m ih =>
    rw [List.range_succ, List.flatMap_append]
    rcases Nat.lt_succ_iff_lt_or_eq.mp h with hlt | heq
    · obtain ⟨rest, hrest⟩ := ih hlt
      exact ⟨rest ++ [m].flatMap f, by rw [hrest, List.append_assoc]⟩
    · subst heq
      exact ⟨[], by simp⟩

theorem setup_log_upto (env : Env) (cfg : RunConfig) (hinit : env.initOk = true) (i : Nat)
    (hi : i < 4) (hok : ∀ j, j ≤ i → env.createOk j = true) :
    ∃ m tail rest, i < m ∧
      (setup env cfg World.boot).world.log =
        initCalls cfg ++ (List.range m).flatMap (createCalls env cfg) ++ tail ∧
      (List.range m).flatMap (createCalls env cfg) =
        (List.range i).flatMap (createCalls env cfg) ++ createCalls env cfg i ++ rest ∧
      (tail = failedCalls env cfg m ∨ tail = showCalls) := by
  obtain ⟨m, tail, hm, -, hlog, htail⟩ := setup_log_shape env cfg hinit
  have him : i < m := by
    rcases htail with ⟨hm4, hfail, -⟩ | ⟨hm4, -⟩
    · by_contra hle
      have := hok m (by omega)
      rw [this] at hfail
      cases hfail
    · omega
  obtain ⟨rest, hrest⟩ := flatMap_range_split (createCalls env cfg) i m him
  refine ⟨m, tail, rest, him, hlog, hrest, ?_⟩
  rcases htail with ⟨-, -, h⟩ | ⟨-, h⟩
  · exact Or.inl h
  · exact Or.inr h

/-- C7: whatever the configuration, window 0 is created while the
FOCUS_ON_SHOW hint still has its default value true, no call having set that
hint before; each later window is created right after the call that sets the
hint to `focusOnShow`, and with that value; and the windows keep these
attributes when all four are created. -/
theorem focus_hint_scope (env : Env) (cfg : RunConfig) (i : Nat) (hi : i < 4)
    (hinit : env.initOk = true) (hok : ∀ j, j ≤ i → env.createOk j = true) :
    (∃ before after hints,
      (setup env cfg World.boot).world.log =
        before ++ [.glfwCreateWindow 200 200 (titles.getD i "") hints (some i)] ++ after ∧
      hints.focusOnShow = (if i = 0 then true else decide (cfg.focusOnShow ≠ 0)) ∧
      (i = 0 → ∀ c ∈ before, isFocusHint c = false) ∧
      (i ≠ 0 → ∃ front,
        before = front ++ [.glfwWindowHint GLFW_FOCUS_ON_SHOW cfg.focusOnShow])) ∧
    ((∀ j, j < 4 → env.createOk j = true) →
      ∃ w win, setup env cfg World.boot = .next [0, 1, 2, 3] w ∧ w.windows[i]? = some win ∧
        win.focusOnShow = (if i = 0 then true else decide (cfg.focusOnShow ≠ 0))) := by
  obtain ⟨m, tail, rest, him, hlog, hsplit, -⟩ := setup_log_upto env cfg hinit i hi hok
  constructor
  · refine ⟨initCalls cfg ++ (List.range i).flatMap (createCalls env cfg) ++
        focusHintCalls cfg i,
      (createCalls env cfg i).drop ((focusHintCalls cfg i).length + 1) ++ rest ++ tail,
      hintsAt cfg i, ?_, rfl, ?_, ?_⟩
    · rw [hlog, hsplit]
      by_cases h0 : i = 0 <;> simp [createCalls, focusHintCalls, h0]
    · intro h0 c hc
      subst h0
      simp only [List.range_zero, List.flatMap_nil, List.append_nil, focusHintCalls,
        if_true] at hc
      exact (initCalls_props cfg).2.2.2 c hc |>.2.2.2.2
    · intro h0
      exact ⟨initCalls cfg ++ (List.range i).flatMap (createCalls env cfg),
        by simp [focusHintCalls, h0]⟩
  · intro hall
    obtain ⟨w, hw, -, hwin, -⟩ := setup_success env cfg hinit (hall 0 (by decide))
      (hall 1 (by decide)) (hall 2 (by decide)) (hall 3 (by decide))
    refine ⟨w, tiledWindow env cfg i, hw, ?_, rfl⟩
    rw [hwin]
    interval_cases i <;> rfl

theorem focus_hint_scope_witness :
    ((setup sampleEnv (configOf ['f']) World.boot).world.windows[2]?).map Window.focusOnShow =
      some false := by
  obtain ⟨w, win, hsetup, hwin, hfocus⟩ :=
    (focus_hint_scope sampleEnv (configOf ['f']) 2 (by decide) rfl (fun _ _ => rfl)).2
      (fun _ _ => rfl)
  rw [hsetup]
  simp only [Step.world]
  rw [hwin, Option.map_some', hfocus]
  decide

/-! ## The main loop -/

theorem keeps_refl (w : World) : Keeps w w :=
  fun _ win hw => ⟨win, hw, rfl, id⟩

theorem keeps_trans {w1 w2 w3 : World} (h12 : Keeps w1 w2) (h23 : Keeps w2 w3) :
    Keeps w1 w3 := by
  intro h win hw
  obtain ⟨win2, hw2, hk2, hc2⟩ := h12 h win hw
  obtain ⟨win3, hw3, hk3, hc3⟩ := h23 h win2 hw2
  exact ⟨win3, hw3, hk3.trans hk2, fun hc => hc3 (hc2 hc)⟩

theorem keeps_of_eq {w w' : World} (h : w'.windows = w.windows) : Keeps w w' := by
  intro i win hw
  exact ⟨win, by rw [h]; exact hw, rfl, id⟩

theorem keeps_of_update {w w' : World} (f : Window → Window) (i : Nat)
    (h : w'.windows = updateWindow f i w.windows)
    (hf : ∀ win, (f win).hasKeyCallback = win.hasKeyCallback ∧
      (win.shouldClose = true → (f win).shouldClose = true)) : Keeps w w' := by
  intro j win hw
  rw [h, updateWindow_getElem?, hw]
  by_cases hji : j = i
  · exact ⟨f win, by simp [hji], (hf win).1, (hf win).2⟩
  · exact ⟨win, by simp [hji], rfl, id⟩

theorem keeps_flagged {w w' : World} (hk : Keeps w w') {h : Nat} (hf : Flagged h w) :
    Flagged h w' := by
  obtain ⟨win, hw, hc⟩ := hf
  obtain ⟨win', hw', -, hc'⟩ := hk h win hw
  exact ⟨win', hw', hc' hc⟩

theorem keeps_armed {w w' : World} (hk : Keeps w w') {h : Nat} (ha : Armed h w) :
    Armed h w' := by
  obtain ⟨win, hw, hc⟩ := ha
  obtain ⟨win', hw', hk', -⟩ := hk h win hw
  exact ⟨win', hw', hk'.trans hc⟩

theorem key_callback_keeps (w : World) (window : Nat) (key scancode action mods : Int) :
    Keeps w (key_callback w window key scancode action mods) := by
  unfold key_callback
  split_ifs
  · exact keeps_refl _
  · unfold glfwGetWindowPos
    rcases w.windows[window]? with _ | win
    · exact keeps_of_update _ window rfl (fun _ => ⟨rfl, id⟩)
    · exact keeps_of_update _ window rfl (fun _ => ⟨rfl, id⟩)
  · exact keeps_of_update _ window rfl (fun _ => ⟨rfl, fun _ => rfl⟩)
  · exact keeps_refl _

theorem dispatch_keeps (w : World) (e : Event) : Keeps w (dispatch w e) := by
  cases e with
  | key window key scancode action mods =>
    simp only [dispatch]
    rcases w.windows[window]? with _ | win
    · exact keeps_refl _
    · dsimp only
      split_ifs
      · exact key_callback_keeps _ _ _ _ _ _
      · exact keeps_refl _
  | close window => exact keeps_of_update _ window rfl (fun _ => ⟨rfl, fun _ => rfl⟩)

theorem foldl_dispatch_keeps (events : List Event) (w : World) :
    Keeps w (events.foldl dispatch w) := by
  induction events generalizing w with
  | nil => exact keeps_refl _
  | cons e rest ih => exact keeps_trans (dispatch_keeps w e) (ih _)

theorem dispatch_escape_flags (w : World) (h : Nat) (scancode mods : Int) (ha : Armed h w) :
    Flagged h (dispatch w (.key h GLFW_KEY_ESCAPE scancode GLFW_PRESS mods)) := by
  obtain ⟨win, hw, hcb⟩ := ha
  have hkey : (key_callback w h GLFW_KEY_ESCAPE scancode GLFW_PRESS mods).windows =
      updateWindow (fun win => { win with shouldClose := true }) h w.windows := by
    simp [key_callback, glfwSetWindowShouldClose, World.call, GLFW_KEY_ESCAPE, GLFW_KEY_SPACE,
      GLFW_TRUE]
  simp only [dispatch, hw, hcb, if_true]
  refine ⟨{ win with shouldClose := true }, ?_, rfl⟩
  rw [hkey, updateWindow_getElem?, hw]
  simp

theorem foldl_dispatch_escape_flags (events : List Event) (w : World) (h : Nat)
    (scancode mods : Int) (ha : Armed h w)
    (hev : Event.key h GLFW_KEY_ESCAPE scancode GLFW_PRESS mods ∈ events) :
    Flagged h (events.foldl dispatch w) := by
  induction events generalizing w with
  | nil => cases hev
  | cons e rest ih =>
    rcases List.mem_cons.mp hev with heq | hmem
    · subst heq
      exact keeps_flagged (foldl_dispatch_keeps rest _) (dispatch_escape_flags w h scancode mods ha)
    · exact ih _ (keeps_armed (dispatch_keeps w e) ha) hmem

theorem drawAndPoll_keeps (env : Env) (w : World) (window : Nat) :
    Keeps w (drawAndPoll env w window) := by
  unfold drawAndPoll glfwPollEvents
  refine keeps_trans ?_ (foldl_dispatch_keeps _ _)
  exact keeps_of_eq rfl

theorem drawAndPoll_escape_flags (env : Env) (w : World) (window h : Nat)
    (scancode mods : Int) (ha : Armed h w)
    (hev : Event.key h GLFW_KEY_ESCAPE scancode GLFW_PRESS mods ∈ env.events w.polls) :
    Flagged h (drawAndPoll env w window) := by
  unfold drawAndPoll glfwPollEvents
  exact foldl_dispatch_escape_flags _ _ h scancode mods ha hev

theorem glfwWindowShouldClose_world (w : World) (h : Nat) :
    (glfwWindowShouldClose w h).2.windows = w.windows := by
  unfold glfwWindowShouldClose
  cases w.windows[h]? <;> rfl

theorem glfwWindowShouldClose_flagged (w : World) (h : Nat) (hf : Flagged h w) :
    (glfwWindowShouldClose w h).1 = true := by
  obtain ⟨win, hw, hc⟩ := hf
  simp [glfwWindowShouldClose, hw, hc]

theorem renderStep_world (env : Env) (windows : List Nat) (i : Nat) (s : LoopState) :
    (renderStep env windows i s).world =
      (glfwWindowShouldClose (drawAndPoll env s.world (windows.getD i 0))
        (windows.getD i 0)).2 := by
  unfold renderStep
  rcases glfwWindowShouldClose (drawAndPoll env s.world (windows.getD i 0))
    (windows.getD i 0) with ⟨b, w⟩
  cases b <;> rfl

theorem renderStep_keeps (env : Env) (windows : List Nat) (i : Nat) (s : LoopState) :
    Keeps s.world (renderStep env windows i s).world := by
  rw [renderStep_world]
  exact keeps_trans (drawAndPoll_keeps env s.world _) (keeps_of_eq (glfwWindowShouldClose_world _ _))

theorem renderStep_observed (env : Env) (windows : List Nat) (i : Nat) (s : LoopState)
    (h : (glfwWindowShouldClose (drawAndPoll env s.world (windows.getD i 0))
      (windows.getD i 0)).1 = true) :
    (renderStep env windows i s).running = GLFW_FALSE := by
  unfold renderStep
  rcases hres : glfwWindowShouldClose (drawAndPoll env s.world (windows.getD i 0))
    (windows.getD i 0) with ⟨b, w⟩
  rw [hres] at h
  cases b
  · cases h
  · rfl

theorem renderStep_stays_stopped (env : Env) (windows : List Nat) (i : Nat) (s : LoopState)
    (h : s.running = 0) : (renderStep env windows i s).running = 0 := by
  unfold renderStep
  rcases glfwWindowShouldClose (drawAndPoll env s.world (windows.getD i 0))
    (windows.getD i 0) with ⟨b, w⟩
  cases b
  · exact h
  · rfl

theorem renderLoop_stays_stopped (env : Env) (windows : List Nat) (n i : Nat) (s : LoopState)
    (h : s.running = 0) : (renderLoop env windows n i s).running = 0 := by
  induction n generalizing i s with
  | zero => exact h
  | succ n ih => exact ih _ _ (renderStep_stays_stopped env windows i s h)

theorem renderLoop_keeps (env : Env) (windows : List Nat) (n i : Nat) (s : LoopState) :
    Keeps s.world (renderLoop env windows n i s).world := by
  induction n generalizing i s with
  | zero => exact keeps_refl _
  | succ n ih => exact keeps_trans (renderStep_keeps env windows i s) (ih _ _)

/-- A flag that is set when the inner loop has yet to reach its window stops
the main loop in that pass. -/
theorem renderLoop_stops (env : Env) (windows : List Nat) (n i j h : Nat) (s : LoopState)
    (hwin : windows.getD j 0 = h) (hf : Flagged h s.world) (hij : i ≤ j) (hjn : j < i + n) :
    (renderLoop env windows n i s).running = 0 := by
  induction n generalizing i s with
  | zero => omega
  | succ n ih =>
    rcases Nat.eq_or_lt_of_le hij with heq | hlt
    · subst heq
      show (renderLoop env windows n (i + 1) (renderStep env windows i s)).running = 0
      apply renderLoop_stays_stopped
      apply renderStep_observed
      rw [hwin]
      exact glfwWindowShouldClose_flagged _ _ (keeps_flagged (drawAndPoll_keeps env s.world h) hf)
    · show (renderLoop env windows n (i + 1) (renderStep env windows i s)).running = 0
      exact ih (i + 1) _ (keeps_flagged (renderStep_keeps env windows i s) hf) hlt (by omega)

theorem mainLoop_stopped (env : Env) (windows : List Nat) (fuel : Nat) (s : LoopState)
    (h : s.running = 0) : mainLoop env windows fuel s = s := by
  cases fuel with
  | zero => rfl
  | succ fuel => simp [mainLoop, h]

theorem runLoop_stopped (env : Env) (windows : List Nat) (fuel : Nat) (s : LoopState)
    (h : s.running = 0) :
    runLoop env windows fuel s =
      { world := exit (glfwTerminate s.world) EXIT_SUCCESS, status := some EXIT_SUCCESS } := by
  unfold runLoop
  simp [mainLoop_stopped env windows fuel s h, h]

theorem renderLoop_draws (env : Env) (windows : List Nat) (n i : Nat) (s : LoopState) :
    (renderLoop env windows n i s).world.log.filter isDrawOrSwap =
      s.world.log.filter isDrawOrSwap ++
        (List.range' i n).flatMap
          (fun j => [.drawFrame (windows.getD j 0), .glfwSwapBuffers (windows.getD j 0)]) := by
  induction n generalizing i s with
  | zero => simp [renderLoop]
  | succ n ih =>
    obtain ⟨added, hlog, hadded⟩ := renderStep_log env windows i s
    have hnone : added.filter isDrawOrSwap = [] := by
      rw [List.filter_eq_nil_iff]
      intro c hc
      have := hadded c hc
      cases c <;> simp_all [isPollCall, isDrawOrSwap]
    rw [renderLoop, ih, hlog]
    simp [List.filter_append, hnone, List.range'_succ, isDrawOrSwap, List.filter_cons]

/-- C2: when the check of window `k` finds its should-close flag set, the rest
of that cycle still draws and swaps each of the windows `k+1..3` once, in index
order; the loop then stops without another cycle, the windowing layer is
terminated and the program exits with the success status. -/
theorem close_finishes_cycle (env : Env) (windows : List Nat) (s : LoopState) (k : Nat)
    (hk : k < 4)
    (hclose : (glfwWindowShouldClose (drawAndPoll env s.world (windows.getD k 0))
      (windows.getD k 0)).1 = true) :
    (renderStep env windows k s).running = GLFW_FALSE ∧
    renderLoop env windows (4 - k) k s =
      renderLoop env windows (3 - k) (k + 1) (renderStep env windows k s) ∧
    (renderLoop env windows (4 - k) k s).world.log.filter isDrawOrSwap =
      (renderStep env windows k s).world.log.filter isDrawOrSwap ++
        (List.range' (k + 1) (3 - k)).flatMap
          (fun j => [.drawFrame (windows.getD j 0), .glfwSwapBuffers (windows.getD j 0)]) ∧
    (renderLoop env windows (4 - k) k s).running = GLFW_FALSE ∧
    ∀ fuel, runLoop env windows fuel (renderLoop env windows (4 - k) k s) =
      { world := exit (glfwTerminate (renderLoop env windows (4 - k) k s).world) EXIT_SUCCESS,
        status := some EXIT_SUCCESS } := by
  have hstep := renderStep_observed env windows k s hclose
  have hsplit : renderLoop env windows (4 - k) k s =
      renderLoop env windows (3 - k) (k + 1) (renderStep env windows k s) := by
    have h4 : 4 - k = (3 - k) + 1 := by omega
    rw [h4]
    rfl
  have hstop : (renderLoop env windows (4 - k) k s).running = 0 := by
    rw [hsplit]
    exact renderLoop_stays_stopped env windows _ _ _ hstep
  refine ⟨hstep, hsplit, ?_, hstop, fun fuel => runLoop_stopped env windows fuel _ hstop⟩
  rw [hsplit]
  exact renderLoop_draws env windows _ _ _

theorem close_finishes_cycle_witness :
    (renderLoop sampleEnv [0, 1, 2, 3] (4 - 2) 2
      (renderLoop sampleEnv [0, 1, 2, 3] 2 0
        { world := (main ["windows"] sampleEnv 0).world, running := GLFW_TRUE })).running =
      GLFW_FALSE :=
  (close_finishes_cycle sampleEnv [0, 1, 2, 3]
    (renderLoop sampleEnv [0, 1, 2, 3] 2 0
      { world := (main ["windows"] sampleEnv 0).world, running := GLFW_TRUE })
    2 (by decide) (by decide)).2.2.2.1

/-- C3: when a poll of a cycle delivers an Escape press to the key callback of
one of the four windows, whichever window's step the poll belongs to, the main
loop runs at most one further full cycle: after one more cycle at most
`running` is false, more fuel changes nothing, the windowing layer is
terminated and the program exits with the success status. -/
theorem escape_stops_loop (env : Env) (windows : List Nat) (s : LoopState) (i j h : Nat)
    (scancode mods : Int) (hi : i < 4) (hj : j < 4) (hwin : windows[j]? = some h)
    (harmed : ∃ win, s.world.windows[h]? = some win ∧ win.hasKeyCallback = true)
    (hev : Event.key h GLFW_KEY_ESCAPE scancode GLFW_PRESS mods ∈ env.events s.world.polls) :
    (mainLoop env windows 1 (renderLoop env windows (4 - i) i s)).running = 0 ∧
    (∀ fuel, 1 ≤ fuel →
      mainLoop env windows fuel (renderLoop env windows (4 - i) i s) =
        mainLoop env windows 1 (renderLoop env windows (4 - i) i s)) ∧
    (∀ fuel, 1 ≤ fuel →
      runLoop env windows fuel (renderLoop env windows (4 - i) i s) =
        { world := exit (glfwTerminate
            (mainLoop env windows 1 (renderLoop env windows (4 - i) i s)).world) EXIT_SUCCESS,
          status := some EXIT_SUCCESS }) := by
  have hget : windows.getD j 0 = h := by
    simp [List.getD, hwin]
  have hsplit : renderLoop env windows (4 - i) i s =
      renderLoop env windows (3 - i) (i + 1) (renderStep env windows i s) := by
    have h4 : 4 - i = (3 - i) + 1 := by omega
    rw [h4]
    rfl
  have hpolls : s.world.polls = (glfwSwapBuffers (drawFrame
      (glfwMakeContextCurrent s.world (windows.getD i 0)) (windows.getD i 0))
      (windows.getD i 0)).polls := rfl
  have hflag1 : Flagged h (renderStep env windows i s).world := by
    rw [renderStep_world]
    refine keeps_flagged (keeps_of_eq (glfwWindowShouldClose_world _ _)) ?_
    exact drawAndPoll_escape_flags env s.world _ h scancode mods harmed hev
  have hflag : Flagged h (renderLoop env windows (4 - i) i s).world := by
    rw [hsplit]
    exact keeps_flagged (renderLoop_keeps env windows _ _ _) hflag1
  have hcycle : (renderLoop env windows 4 0 (renderLoop env windows (4 - i) i s)).running = 0 :=
    renderLoop_stops env windows 4 0 j h _ hget hflag (Nat.zero_le _) (by omega)
  have hone : (mainLoop env windows 1 (renderLoop env windows (4 - i) i s)).running = 0 := by
    unfold mainLoop
    split_ifs with hrun
    · exact hcycle
    · simpa using hrun
  have hmore : ∀ fuel, 1 ≤ fuel →
      mainLoop env windows fuel (renderLoop env windows (4 - i) i s) =
        mainLoop env windows 1 (renderLoop env windows (4 - i) i s) := by
    intro fuel hfuel
    obtain ⟨f, rfl⟩ : ∃ f, fuel = f + 1 := ⟨fuel - 1, by omega⟩
    unfold mainLoop
    split_ifs with hrun
    · rw [mainLoop_stopped env windows f _ hcycle, mainLoop_stopped env windows 0 _ hcycle]
    · rfl
  refine ⟨hone, hmore, ?_⟩
  intro fuel hfuel
  unfold runLoop
  simp only [hmore fuel hfuel, hone, ne_eq, not_true_eq_false, if_false]

theorem escape_stops_loop_witness :
    (mainLoop sampleEnv [0, 1, 2, 3] 1
      (renderLoop sampleEnv [0, 1, 2, 3] (4 - 0) 0
        { world := (main ["windows"] sampleEnv 0).world, running := GLFW_TRUE })).running = 0 :=
  (escape_stops_loop sampleEnv [0, 1, 2, 3]
    { world := (main ["windows"] sampleEnv 0).world, running := GLFW_TRUE } 0 2 2 9 0
    (by decide) (by decide) rfl ⟨_, rfl, rfl⟩ (by decide)).1

end Windows
